import Mathlib

set_option maxHeartbeats 1000000

/-!
Shallow embedding of the calibration data-collection controller in
`src/calibration/abb_real_data.py` (class `ABBDataCollector` and `main`).

Forces and coordinates (Python floats) are modelled as `Rat`; Python dicts
are modelled as association lists with dict semantics (replace-in-place on
assignment, append on new key); exceptions are modelled with `Except`;
robot/sensor side effects are modelled as event traces.
-/

/-- One relative displacement step (millimetres), the normalized form
produced by `_load_trajectory_config` (a dict with keys x, y, z). -/
structure Step where
  x : Rat
  y : Rat
  z : Rat
deriving DecidableEq

/-- One raw entry of a list-shaped trajectory payload in `traj.json`:
either a JSON object with optional x/y/z fields, a JSON array
(Python list/tuple), or any other JSON value. -/
inductive TrajEntry
  | objEntry (x y z : Option Rat)
  | seqEntry (vals : List Rat)
  | badEntry
deriving DecidableEq

/-- One trajectory payload in `traj.json`: a list of entries, a dict
containing the three parallel sequences keyed x/y/z, or anything else. -/
inductive StepsPayload
  | entryList (es : List TrajEntry)
  | parallelSeqs (xs ys zs : List Rat)
  | badPayload
deriving DecidableEq

/-- Normalization of a single list entry, from `_load_trajectory_config`
lines 201-209: a dict entry uses `.get` with default 0.0 per axis; a
list/tuple entry is accepted only when its length is exactly 3;
anything else is dropped. -/
def entrySteps : TrajEntry → List Step
  | TrajEntry.objEntry x y z => [⟨x.getD 0, y.getD 0, z.getD 0⟩]
  | TrajEntry.seqEntry [a, b, c] => [⟨a, b, c⟩]
  | TrajEntry.seqEntry _ => []
  | TrajEntry.badEntry => []

/-- Elementwise zip of the three parallel axis sequences, from the
`zip(x_seq, y_seq, z_seq)` loop in `_load_trajectory_config` (zip stops
at the shortest sequence). -/
def zipSteps : List Rat → List Rat → List Rat → List Step
  | x :: xs, y :: ys, z :: zs => ⟨x, y, z⟩ :: zipSteps xs ys zs
  | _, _, _ => []

/-- Normalization of one trajectory payload, from `_load_trajectory_config`
lines 200-215. -/
def normalizeSteps : StepsPayload → List Step
  | StepsPayload.entryList es => (es.map entrySteps).flatten
  | StepsPayload.parallelSeqs xs ys zs => zipSteps xs ys zs
  | StepsPayload.badPayload => []

/-- Encoding of an ordered sequence of displacement triples as a list of
full {x,y,z} JSON objects. -/
def encodeObjList (ts : List (Rat × Rat × Rat)) : StepsPayload :=
  StepsPayload.entryList (ts.map fun t => TrajEntry.objEntry (some t.1) (some t.2.1) (some t.2.2))

/-- Encoding of an ordered sequence of displacement triples as a list of
3-element tuples. -/
def encodeTupleList (ts : List (Rat × Rat × Rat)) : StepsPayload :=
  StepsPayload.entryList (ts.map fun t => TrajEntry.seqEntry [t.1, t.2.1, t.2.2])

/-- Encoding of an ordered sequence of displacement triples as three
equal-length parallel sequences keyed x/y/z. -/
def encodeParallelSeqs (ts : List (Rat × Rat × Rat)) : StepsPayload :=
  StepsPayload.parallelSeqs (ts.map fun t => t.1) (ts.map fun t => t.2.1) (ts.map fun t => t.2.2)

/-- The canonical step list all three encodings should normalize to. -/
def canonSteps (ts : List (Rat × Rat × Rat)) : List Step :=
  ts.map fun t => ⟨t.1, t.2.1, t.2.2⟩

/-- Configuration values read inside `move_to_contact`: the safety cutoff
`config["max_force"]` and the contact threshold `self.cont_th`. -/
structure SeekConfig where
  max_force : Rat
  cont_th : Rat
deriving DecidableEq

/-- Robot / sensor side effects issued by the collector, abstracted from
the driver calls: `moveCart`/`moveJoint` (any motion command), a force
read used as data or feedback, a tactile-field read used as data,
`ati.tare()`, the tactile-sensor constructor read, `sensor.release()`,
and `sig_motor_off()`. -/
inductive Event
  | motion
  | forceSample
  | tactileSample
  | tare
  | sensorInit
  | sensorRelease
  | motorOff
deriving DecidableEq

/-- Exit of the `while not is_contact` loop in `move_to_contact`
(lines 297-316): normal exit carrying the `is_contact` flag, the
iteration index at which the break happened and the recorded z;
the over-force `raise RuntimeError` carrying the offending reading;
or fuel exhaustion (the loop has not yet terminated). -/
inductive LoopExit
  | done (is_contact : Bool) (iter : Nat) (z : Rat)
  | raised (f : Rat)
  | fuelOut
deriving DecidableEq

/-- The contact-seek loop body of `move_to_contact`, lines 297-316,
driven by the stream `r` of ATI z-force readings: iteration `n` first
reads `r (2*n)` for the safety check (`fz <= max_force` raises), then
reads `r (2*n+1)` (a second, separate `get_ati_data()` call) for the
contact check (`fz_current <= cont_th` records z and breaks), else the
robot steps down 0.01 mm and the loop repeats.  The first component is
the trace of events the body issues; recursion is on `fuel`. -/
def contactLoopTr (cfg : SeekConfig) (r : Nat → Rat) :
    Nat → Nat → Rat → Bool → List Event × LoopExit
  | _, n, z, true => ([], LoopExit.done true n z)
  | 0, _, _, false => ([], LoopExit.fuelOut)
  | Nat.succ fuel, n, z, false =>
    if r (2 * n) ≤ cfg.max_force then
      ([Event.forceSample], LoopExit.raised (r (2 * n)))
    else if r (2 * n + 1) ≤ cfg.cont_th then
      ([Event.forceSample, Event.forceSample], LoopExit.done true n z)
    else
      let tail := contactLoopTr cfg r fuel (n + 1) (z - 1 / 100) false
      ([Event.forceSample, Event.forceSample, Event.motion] ++ tail.1, tail.2)

/-- Outcome of a full `move_to_contact` call: contact found (carrying the
recorded `z_cont` and the index into the reading stream of the force
sample that triggered the contact detection), the over-force
RuntimeError, the post-loop contact-not-found RuntimeError, or
non-termination within the given fuel. -/
inductive ContactOutcome
  | ok (z_cont : Rat) (trigIdx : Nat)
  | forceError (f : Rat)
  | notFound
  | diverge
deriving DecidableEq

/-- Full `move_to_contact` (lines 282-322): the initial positioning move,
the seek loop started with `is_contact = False`, and the post-loop
`if not is_contact: raise RuntimeError` branch mapped to `notFound`. -/
def moveToContactTr (cfg : SeekConfig) (r : Nat → Rat) (fuel : Nat) (z0 : Rat) :
    List Event × ContactOutcome :=
  let run := contactLoopTr cfg r fuel 0 z0 false
  (Event.motion :: run.1,
   match run.2 with
   | LoopExit.done true n z => ContactOutcome.ok z (2 * n + 1)
   | LoopExit.done false _ _ => ContactOutcome.notFound
   | LoopExit.raised f => ContactOutcome.forceError f
   | LoopExit.fuelOut => ContactOutcome.diverge)

/-- Outcome projection of `move_to_contact`. -/
def moveToContact (cfg : SeekConfig) (r : Nat → Rat) (fuel : Nat) (z0 : Rat) :
    ContactOutcome :=
  (moveToContactTr cfg r fuel z0).2

/-- Concrete seek configuration, scaled from the defaults
(`max_force` below `contact_threshold`). -/
def cfgC2 : SeekConfig := ⟨-10, -1⟩

/-- Concrete force-reading stream whose safety-checked sample (index 0)
is benign while the contact-checked sample (index 1) is far beyond the
safety limit. -/
def rC2 : Nat → Rat := fun n => if n = 1 then -20 else 0

/-- Concrete force-reading stream that finds contact at a safe force:
the contact sample of the first iteration crosses the threshold gently. -/
def rW : Nat → Rat := fun n => if n = 1 then -2 else 0

/-- Lookup in a Python dict modelled as an association list (first
binding wins). -/
def alookup {α : Type} : List (String × α) → String → Option α
  | [], _ => none
  | (k, v) :: rest, key => if k = key then some v else alookup rest key

/-- Python dict assignment `d[k] = v`: replace the binding in place when
the key exists, append otherwise. -/
def aset {α : Type} : List (String × α) → String → α → List (String × α)
  | [], key, v => [(key, v)]
  | (k, w) :: rest, key, v =>
    if k = key then (key, v) :: rest else (k, w) :: aset rest key v

/-- Python dict `d.setdefault(k, v)`: leave the dict unchanged when the
key exists, append the default binding otherwise. -/
def asetdefault {α : Type} (l : List (String × α)) (key : String) (v : α) :
    List (String × α) :=
  match alookup l key with
  | some _ => l
  | none => l ++ [(key, v)]

/-- Left-biased combination of options (the value of `a or b` on dict
lookups). -/
def oor {α : Type} : Option α → Option α → Option α
  | some v, _ => some v
  | none, b => b

/-- Map from step key to collected step value: the data of one trajectory. -/
abbrev StepMap (W : Type) := List (String × W)

/-- Map from trajectory name to its step map: the data of one object. -/
abbrev TrajMap (W : Type) := List (String × StepMap W)

/-- The three-level calibration tree: object name, trajectory name, step
key (the shape of both `self.calibration_data` and the storage file). -/
abbrev CalTree (W : Type) := List (String × TrajMap W)

/-- Lookup of a step value inside the trajectory map of one object. -/
def leaf2 {W : Type} (m : TrajMap W) (t s : String) : Option W :=
  (alookup m t).bind fun st => alookup st s

/-- Lookup of a step value at a full (object, trajectory, step) path. -/
def leaf3 {W : Type} (tree : CalTree W) (o t s : String) : Option W :=
  (alookup tree o).bind fun m => leaf2 m t s

/-- An overwrite warning path logged by `save_calibration_data`
(`覆盖已有数据: obj/traj/step`). -/
abbrev WarnPath := String × String × String

/-- Innermost loop of `save_calibration_data` (lines 458-462): write the
session steps of one trajectory into the stored step map, warning on
every key that is already present at the moment it is written. -/
def mergeSteps {W : Type} (o t : String) :
    StepMap W → StepMap W → StepMap W × List WarnPath
  | tm, [] => (tm, [])
  | tm, (sk, v) :: rest =>
    let w : List WarnPath :=
      match alookup tm sk with
      | some _ => [(o, t, sk)]
      | none => []
    let tail := mergeSteps o t (aset tm sk v) rest
    (tail.1, w ++ tail.2)

/-- Middle loop of `save_calibration_data` (lines 456-462):
`storage[obj].setdefault(traj_name, {})` followed by the step writes. -/
def mergeTrajs {W : Type} (o : String) :
    TrajMap W → TrajMap W → TrajMap W × List WarnPath
  | om, [] => (om, [])
  | om, (tn, steps) :: rest =>
    let om1 := asetdefault om tn []
    let inner := (alookup om1 tn).getD []
    let ms := mergeSteps o tn inner steps
    let om2 := aset om1 tn ms.1
    let tail := mergeTrajs o om2 rest
    (tail.1, ms.2 ++ tail.2)

/-- Outer loop of `save_calibration_data` (lines 454-462): merge the
session tree `calib` into the loaded storage tree, returning the merged
tree and the list of overwrite-warning paths in emission order. -/
def mergeObjects {W : Type} : CalTree W → CalTree W → CalTree W × List WarnPath
  | store, [] => (store, [])
  | store, (o, trajs) :: rest =>
    let st1 := asetdefault store o []
    let om := (alookup st1 o).getD []
    let mt := mergeTrajs o om trajs
    let st2 := aset st1 o mt.1
    let tail := mergeObjects st2 rest
    (tail.1, mt.2 ++ tail.2)

/-- Body of `save_calibration_data` (lines 446-467): when
`self.calibration_data` is empty nothing is loaded or written
(`none`); otherwise the loaded store is merged with the session tree
and written back (`some` of the merged tree and warnings). -/
def saveCalibrationData {W : Type} (calib store : CalTree W) :
    Option (CalTree W × List WarnPath) :=
  if calib.isEmpty then none else some (mergeObjects store calib)

/-- The save step of `cleanup` (lines 477-478): `save_calibration_data`
runs only when `self.calibration_data` is truthy. -/
def cleanupSave {W : Type} (calib store : CalTree W) : Option (CalTree W × List WarnPath) :=
  if calib.isEmpty then none else saveCalibrationData calib store

/-- Nodup condition at the step level of a session tree (Python dicts
cannot contain a key twice). -/
abbrev stepsNodup {W : Type} (m : StepMap W) : Prop := (m.map Prod.fst).Nodup

/-- Nodup condition for the trajectory map of one object, down to its step
maps. -/
abbrev trajsNodup {W : Type} (m : TrajMap W) : Prop :=
  (m.map Prod.fst).Nodup ∧ ∀ p ∈ m, stepsNodup p.2

/-- Nodup condition for a whole session tree: distinct keys at every
level, as holds for any tree built from Python dicts. -/
abbrev treeNodup {W : Type} (tr : CalTree W) : Prop :=
  (tr.map Prod.fst).Nodup ∧ ∀ p ∈ tr, trajsNodup p.2


/-- Exceptions that can propagate through trajectory execution: the
over-force RuntimeError raised in `move_to_contact`, the post-loop
contact-not-found RuntimeError, and a sensor-read failure re-raised by
`_collect_current_step_data`. -/
inductive Fault
  | safety (f : Rat)
  | contactNotFound
  | sampling
deriving DecidableEq

/-- The step metadata attached by `_execute_trajectory` (lines 369-373). -/
structure StepMetadata where
  trajectory : String
  step_index : Nat
  commanded_delta_mm : Step
deriving DecidableEq

/-- One collected step record, from `_collect_current_step_data`:
sensor payload (marker displacement and averaged force, abstracted as
`V`) plus the metadata (the source also stores `depth_field = None`). -/
structure StepData (V : Type) where
  payload : V
  metadata : StepMetadata
deriving DecidableEq

/-- Zero padding of `f"step_{idx:03d}"`: decimal digits left-padded with
zeros to a minimum width of 3. -/
def padZero3 (n : Nat) : String :=
  let s := toString n
  if s.length < 3 then String.mk (List.replicate (3 - s.length) '0') ++ s else s

/-- The step key `f"step_{idx:03d}"` of `_execute_trajectory` line 377. -/
def stepKey (idx : Nat) : String := "step_" ++ padZero3 idx

/-- The per-step loop of `_execute_trajectory` (lines 362-378): move by
the commanded delta, sample (the oracle `sample` stands for
`_collect_current_step_data`, which reads the tactile field once and
then the force stream, and re-raises any sensor failure), and store the
record under the zero-padded key.  On success the record dict has four
keys and is always truthy, so it is always stored.  Returns the event
trace of the loop and either the record list or the propagated fault. -/
def execSteps {V : Type} (trajName : String) (sample : Nat → Except Fault V) :
    Nat → List Step → List Event × Except Fault (List (String × StepData V))
  | _, [] => ([], Except.ok [])
  | idx, st :: rest =>
    match sample idx with
    | Except.error e =>
      ([Event.motion, Event.tactileSample, Event.forceSample], Except.error e)
    | Except.ok v =>
      let tail := execSteps trajName sample (idx + 1) rest
      (([Event.motion, Event.tactileSample, Event.forceSample]) ++ tail.1,
       match tail.2 with
       | Except.ok l => Except.ok ((stepKey idx, ⟨v, ⟨trajName, idx, st⟩⟩) :: l)
       | Except.error e => Except.error e)

/-- Full `_execute_trajectory` (lines 348-384): an empty step list
returns an empty record dict at once (line 350-351, before any robot
interaction); otherwise the robot moves to safe height, seeks contact
(whose force stream, fuel and start height are `r`, `fuel`, `z0`), runs
the per-step loop, and on success returns to safe height.  `none`
models a contact-seek loop that never terminates; otherwise the event
trace and either the records or the propagated fault are returned. -/
def executeTrajectory {V : Type} (cfg : SeekConfig) (r : Nat → Rat) (fuel : Nat)
    (z0 : Rat) (trajName : String) (steps : List Step)
    (sample : Nat → Except Fault V) :
    Option (List Event × Except Fault (List (String × StepData V))) :=
  if steps.isEmpty then some ([], Except.ok [])
  else
    let seek := moveToContactTr cfg r fuel z0
    match seek.2 with
    | ContactOutcome.ok _ _ =>
      let body := execSteps trajName sample 0 steps
      some (Event.motion :: seek.1 ++ body.1 ++
              (match body.2 with
               | Except.ok _ => [Event.motion]
               | Except.error _ => []),
            body.2)
    | ContactOutcome.forceError f =>
      some (Event.motion :: seek.1, Except.error (Fault.safety f))
    | ContactOutcome.notFound =>
      some (Event.motion :: seek.1, Except.error Fault.contactNotFound)
    | ContactOutcome.diverge => none

/-- Result of `collect_calibration_data`: the resulting
`self.calibration_data` tree, the names of trajectories whose exception
was caught and logged (line 341-342), and the names of all trajectories
the loop attempted, in order. -/
structure CollectResult (W : Type) where
  calibData : CalTree W
  failed : List String
  attempted : List String
deriving DecidableEq

/-- The per-trajectory loop of `collect_calibration_data` (lines
336-342): each trajectory runs inside `try`; `except Exception` catches
every fault, logs it, and continues with the next trajectory; a falsy
(empty) record dict is not added to the object data. -/
def collectLoop {W : Type} (runTraj : String → List Step → Except Fault (StepMap W)) :
    List (String × List Step) → TrajMap W × List String × List String
  | [] => ([], [], [])
  | (name, steps) :: rest =>
    let tail := collectLoop runTraj rest
    match runTraj name steps with
    | Except.ok d =>
      (if d.isEmpty then tail.1 else (name, d) :: tail.1, tail.2.1, name :: tail.2.2)
    | Except.error _ => (tail.1, name :: tail.2.1, name :: tail.2.2)

/-- Full `collect_calibration_data` (lines 324-346): look the object up
in the trajectory config; when absent, store an empty dict under the
object name and return; otherwise run the per-trajectory loop and store
its object data under the object name. -/
def collectCalibrationData {W : Type}
    (trajCfg : List (String × List (String × List Step))) (obj : String)
    (runTraj : String → List Step → Except Fault (StepMap W)) : CollectResult W :=
  match alookup trajCfg obj with
  | none => ⟨[(obj, [])], [], []⟩
  | some trajs =>
    let res := collectLoop runTraj trajs
    ⟨[(obj, res.1)], res.2.1, res.2.2⟩

/-- The `_get_default_config` dict (lines 162-173), used verbatim as
`self.config` when no config file is given. -/
def defaultConfig : List (String × Rat) :=
  [("contact_threshold", -1/50), ("approach_speed", 1), ("press_speed", 8),
   ("max_force", -1), ("data_frames", 30), ("frame_interval", 1/10),
   ("step_settle_time", 3/10), ("safe_offset_mm", 8)]

/-- The config selection of `__init__` lines 101-105: the YAML mapping
when a config file is given, the default dict otherwise. -/
def initConfig (configFile : Option (List (String × Rat))) : List (String × Rat) :=
  match configFile with
  | some c => c
  | none => defaultConfig

/-- Python `self.config.get(k, d)`. -/
def cfgGetD (c : List (String × Rat)) (k : String) (d : Rat) : Rat :=
  (alookup c k).getD d

/-- The option values bound in `__init__` via `.get` with inline
defaults (lines 107-110 and 157). -/
structure CollectorFields where
  step_settle_time : Rat
  safe_offset_mm : Rat
  frame_interval : Rat
  data_frames : Rat
  cont_th : Rat
deriving DecidableEq

/-- The `.get`-based option reads of `__init__`: `step_settle_time`
defaults to 0.3, `safe_offset_mm` to 1.0, `frame_interval` to 0.1,
`data_frames` to 10, `contact_threshold` to -0.05. -/
def initFields (c : List (String × Rat)) : CollectorFields :=
  ⟨cfgGetD c "step_settle_time" (3/10), cfgGetD c "safe_offset_mm" 1,
   cfgGetD c "frame_interval" (1/10), cfgGetD c "data_frames" 10,
   cfgGetD c "contact_threshold" (-1/20)⟩

/-- The mandatory (bracket-indexed) config reads around the seek loop of
`move_to_contact`: `config["approach_speed"]` (line 293),
`config["max_force"]` (line 300, first evaluated on the first loop
iteration), and `config["press_speed"]` (line 322, evaluated only after
contact was found).  A missing key is a KeyError, modelled as `none`. -/
def moveToContactChecked (c : List (String × Rat)) (cont_th : Rat)
    (r : Nat → Rat) (fuel : Nat) (z0 : Rat) : Option ContactOutcome :=
  match alookup c "approach_speed" with
  | none => none
  | some _ =>
    match alookup c "max_force" with
    | none => none
    | some mf =>
      match moveToContact ⟨mf, cont_th⟩ r fuel z0 with
      | ContactOutcome.ok z t =>
        (alookup c "press_speed").map fun _ => ContactOutcome.ok z t
      | out => some out

/-- The conditional `moveJoint` of `_check_joint_limit` (lines 228-240),
driven by the sixth joint angle. -/
def checkJointLimitEvents (j5 : Rat) : List Event :=
  if j5 > 180 then [Event.motion]
  else if j5 < -180 then [Event.motion]
  else []

/-- Events issued by `ABBDataCollector.__init__` (lines 118-153):
`moveCart(pose0_init)`, the joint-limit check, `moveCart(pose0)`,
`ati.tare()`, and the tactile-sensor constructor read. -/
def initEvents (j5 : Rat) : List Event :=
  [Event.motion] ++ checkJointLimitEvents j5 ++
    [Event.motion, Event.tare, Event.sensorInit]

/-- Events issued by `cleanup` when `self.calibration_data` is empty
(the dry-run case): `move_to_safe_position` issues one `moveCart`, no
save runs, the tactile sensor is released, and the motors are switched
off. -/
def cleanupEvents : List Event :=
  [Event.motion, Event.sensorRelease, Event.motorOff]

/-- The dry-run path of `main` (lines 522-533) for a valid object: the
collector is constructed (issuing the `__init__` events), the available
trajectories are logged, and `cleanup` runs; `collect_calibration_data`
is never called. -/
def dryRunTrace (j5 : Rat) : List Event := initEvents j5 ++ cleanupEvents

/-- Concrete trajectory table for the caught-safety-fault scenario: one
object with two one-step trajectories. -/
def trajsC1 : List (String × List Step) :=
  [("t0", [⟨0, 0, -1⟩]), ("t1", [⟨0, 0, -1⟩])]

/-- Concrete trajectory config containing `trajsC1` under object
`cube`. -/
def trajCfgC1 : List (String × List (String × List Step)) := [("cube", trajsC1)]

/-- Concrete per-trajectory runner: trajectory `t0` raises the
over-force safety RuntimeError, every other trajectory succeeds with
one record. -/
def runTrajC1 : String → List Step → Except Fault (StepMap Nat) :=
  fun name _ =>
    if name = "t0" then Except.error (Fault.safety (-20))
    else Except.ok [("step_000", 7)]

/-- Trivial per-trajectory runner used where the trajectory table is
empty. -/
def runTrajTriv : String → List Step → Except Fault (StepMap Nat) :=
  fun _ _ => Except.ok []

/-- Concrete always-succeeding step sampler. -/
def sampleW : Nat → Except Fault Nat := fun _ => Except.ok 0

/-- Concrete storage tree holding one record, for the merge witness. -/
def storeC8 : CalTree Nat := [("a", [("t", [("s1", 1)])])]

/-- Concrete session tree overlapping `storeC8` at exactly
("a","t","s1") and otherwise disjoint from it. -/
def calibC8 : CalTree Nat :=
  [("a", [("t", [("s1", 2), ("s2", 3)])]), ("b", [("u", [("s", 4)])])]

/-- Concrete supplied config that provides `approach_speed` and
`press_speed` but omits `max_force`. -/
def cfgNoMax : List (String × Rat) := [("approach_speed", 1), ("press_speed", 8)]

/-- Concrete supplied config that provides `approach_speed` and
`max_force` but omits `press_speed`. -/
def cfgNoPress : List (String × Rat) := [("approach_speed", 1), ("max_force", -10)]

lemma normalize_objList (ts : List (Rat × Rat × Rat)) :
    normalizeSteps (encodeObjList ts) = canonSteps ts := by
  induction ts with
  | nil => rfl
  | cons h t ih =>
    simp only [encodeObjList, normalizeSteps, List.map_cons, List.flatten_cons,
      entrySteps, canonSteps] at *
    simpa using ih

lemma normalize_tupleList (ts : List (Rat × Rat × Rat)) :
    normalizeSteps (encodeTupleList ts) = canonSteps ts := by
  induction ts with
  | nil => rfl
  | cons h t ih =>
    simp only [encodeTupleList, normalizeSteps, List.map_cons, List.flatten_cons,
      entrySteps, canonSteps] at *
    simpa using ih

lemma normalize_parallelSeqs (ts : List (Rat × Rat × Rat)) :
    normalizeSteps (encodeParallelSeqs ts) = canonSteps ts := by
  induction ts with
  | nil => rfl
  | cons h t ih =>
    simp only [encodeParallelSeqs, normalizeSteps, List.map_cons, zipSteps,
      canonSteps] at *
    simpa using ih

/-- C9: the three accepted trajectory encodings — a list of {x,y,z}
objects, a list of 3-element tuples, and a dict of three equal-length
parallel sequences keyed x/y/z — are normalized by
`_load_trajectory_config` to the identical ordered step list. -/
theorem trajectory_encodings_normalize_equal (ts : List (Rat × Rat × Rat)) :
    normalizeSteps (encodeObjList ts) = canonSteps ts
    ∧ normalizeSteps (encodeTupleList ts) = canonSteps ts
    ∧ normalizeSteps (encodeParallelSeqs ts) = canonSteps ts :=
  ⟨normalize_objList ts, normalize_tupleList ts, normalize_parallelSeqs ts⟩

lemma contactLoop_not_done_false (cfg : SeekConfig) (r : Nat → Rat) :
    ∀ fuel n z c m z2, (contactLoopTr cfg r fuel n z c).2 ≠ LoopExit.done false m z2 := by
  intro fuel
  induction fuel with
  | zero =>
    intro n z c m z2
    cases c <;> simp [contactLoopTr]
  | succ fu ih =>
    intro n z c m z2
    cases c
    · simp only [contactLoopTr]
      split_ifs with h1 h2
      · simp
      · simp
      · simpa using ih (n + 1) (z - 1 / 100) false m z2
    · simp [contactLoopTr]

lemma moveToContact_eq (cfg : SeekConfig) (r : Nat → Rat) (fuel : Nat) (z0 : Rat) :
    moveToContact cfg r fuel z0 =
      match (contactLoopTr cfg r fuel 0 z0 false).2 with
      | LoopExit.done true n z => ContactOutcome.ok z (2 * n + 1)
      | LoopExit.done false _ _ => ContactOutcome.notFound
      | LoopExit.raised f => ContactOutcome.forceError f
      | LoopExit.fuelOut => ContactOutcome.diverge := rfl

/-- C10: the contact-seek loop of `move_to_contact` can only terminate
by detecting contact or by raising the over-force error; the post-loop
`if not is_contact: raise RuntimeError` branch is unreachable, so a
contact-not-found error is never raised. -/
theorem contact_seek_no_notfound (cfg : SeekConfig) (r : Nat → Rat) (fuel : Nat)
    (z0 : Rat) : moveToContact cfg r fuel z0 ≠ ContactOutcome.notFound := by
  rw [moveToContact_eq]
  intro h
  cases hres : (contactLoopTr cfg r fuel 0 z0 false).2 with
  | done b n z =>
    rw [hres] at h
    cases b
    · exact contactLoop_not_done_false cfg r fuel 0 z0 false n z hres
    · simp at h
  | raised f =>
    rw [hres] at h
    simp at h
  | fuelOut =>
    rw [hres] at h
    simp at h

/-- C2 counterexample: a descent in which the safety-checked sample
(reading 0) is benign but the contact check — a second, separate force
read (reading 1) — is far beyond the safety limit.  `move_to_contact`
still reports contact at that height, so the returned height is one at
which a force sampled during the descent was at or below `max_force`,
and the triggering reading itself is below the safety limit. -/
theorem contact_trigger_force_cex :
    moveToContact cfgC2 rC2 5 0 = ContactOutcome.ok 0 1
    ∧ rC2 1 ≤ cfgC2.max_force
    ∧ ¬ cfgC2.max_force < rC2 1 := by decide

lemma contactLoop_safety_checked (cfg : SeekConfig) (r : Nat → Rat) :
    ∀ fuel n z m z2, (contactLoopTr cfg r fuel n z false).2 = LoopExit.done true m z2 →
      n ≤ m ∧ (∀ k, n ≤ k → k ≤ m → cfg.max_force < r (2 * k))
        ∧ r (2 * m + 1) ≤ cfg.cont_th := by
  intro fuel
  induction fuel with
  | zero =>
    intro n z m z2 h
    simp [contactLoopTr] at h
  | succ fu ih =>
    intro n z m z2 h
    simp only [contactLoopTr] at h
    split_ifs at h with h1 h2
    · obtain ⟨hm, hz⟩ : n = m ∧ z = z2 := by simpa using h
      subst hm
      refine ⟨le_refl n, ?_, h2⟩
      intro k hk1 hk2
      have hk : k = n := le_antisymm hk2 hk1
      subst hk
      exact lt_of_not_le h1
    · have htail : (contactLoopTr cfg r fu (n + 1) (z - 1 / 100) false).2
          = LoopExit.done true m z2 := by simpa using h
      obtain ⟨hle, hsafe, htrig⟩ := ih (n + 1) (z - 1 / 100) m z2 htail
      refine ⟨Nat.le_of_succ_le hle, ?_, htrig⟩
      intro k hk1 hk2
      rcases Nat.lt_or_ge k (n + 1) with hlt | hge
      · have hk : k = n := by omega
        subst hk
        exact lt_of_not_le h1
      · exact hsafe k hge hk2

/-- C2 amended: when `move_to_contact` reports contact, every
safety-checked sample (the first force read of each iteration, the even
readings up to the trigger) is strictly above the safety limit, and the
triggering sample — the second, separate force read of its iteration —
is at or below the contact threshold; the triggering sample itself is
not safety-checked and may be at or below the safety limit (see the
counterexample). -/
theorem seek_safety_checked_samples (cfg : SeekConfig) (r : Nat → Rat) (fuel : Nat)
    (z0 zc : Rat) (t : Nat)
    (h : moveToContact cfg r fuel z0 = ContactOutcome.ok zc t) :
    ∃ m, t = 2 * m + 1 ∧ (∀ k, k ≤ m → cfg.max_force < r (2 * k))
      ∧ r t ≤ cfg.cont_th := by
  rw [moveToContact_eq] at h
  cases hres : (contactLoopTr cfg r fuel 0 z0 false).2 with
  | done b n z =>
    rw [hres] at h
    cases b
    · exact absurd hres (contactLoop_not_done_false cfg r fuel 0 z0 false n z)
    · simp only [ContactOutcome.ok.injEq] at h
      obtain ⟨hz, ht⟩ := h
      obtain ⟨_, hsafe, htrig⟩ := contactLoop_safety_checked cfg r fuel 0 z0 n z hres
      exact ⟨n, ht.symm, fun k hk => hsafe k (Nat.zero_le k) hk, ht ▸ htrig⟩
  | raised f =>
    rw [hres] at h
    simp at h
  | fuelOut =>
    rw [hres] at h
    simp at h

/-- Witness for C2 amended at a concrete benign descent. -/
theorem seek_safety_checked_samples_witness :
    ∃ m, 1 = 2 * m + 1 ∧ (∀ k, k ≤ m → cfgC2.max_force < rW (2 * k))
      ∧ rW 1 ≤ cfgC2.cont_th :=
  seek_safety_checked_samples cfgC2 rW 5 0 0 1 (by decide)

/-- C5 counterexample: for an empty step list `_execute_trajectory`
returns at line 350-351, before any robot interaction, so the empty
record mapping comes back with an empty event trace — the robot is not
moved to safe height, to contact, or back. -/
theorem empty_steps_motion_cex :
    executeTrajectory cfgC2 rW 5 0 "t" ([] : List Step) sampleW
        = some (([] : List Event), Except.ok ([] : List (String × StepData Nat)))
    ∧ Event.motion ∉
        (((executeTrajectory cfgC2 rW 5 0 "t" ([] : List Step) sampleW).getD
          ([], Except.ok [])).1) :=
  ⟨rfl, by decide⟩

/-- C5 amended: for every trajectory whose step list is empty,
`_execute_trajectory` returns an empty record mapping without touching
the robot at all — no safe-height, contact-seek, per-step or return
motion is issued, and no sensor is sampled. -/
theorem empty_steps_no_robot_action {V : Type} (cfg : SeekConfig) (r : Nat → Rat)
    (fuel : Nat) (z0 : Rat) (trajName : String) (sample : Nat → Except Fault V) :
    executeTrajectory cfg r fuel z0 trajName [] sample
      = some (([] : List Event), Except.ok []) := rfl

lemma execSteps_ok {V : Type} (trajName : String) (sample : Nat → Except Fault V) :
    ∀ (steps : List Step) (start : Nat),
      (∀ i, i < steps.length → ∃ v, sample (start + i) = Except.ok v) →
      ∃ recs, (execSteps trajName sample start steps).2 = Except.ok recs
        ∧ recs.length = steps.length
        ∧ ∀ i (h : i < recs.length),
            (recs.get ⟨i, h⟩).1 = stepKey (start + i)
            ∧ (recs.get ⟨i, h⟩).2.metadata.step_index = start + i := by
  intro steps
  induction steps with
  | nil =>
    intro start hs
    exact ⟨[], rfl, rfl, fun i h => absurd h (by simp)⟩
  | cons st rest ih =>
    intro start hs
    obtain ⟨v, hv⟩ := hs 0 (by simp)
    have hv0 : sample start = Except.ok v := by simpa using hv
    obtain ⟨recs, hr, hlen, hprop⟩ := ih (start + 1) (fun i hi => by
      have h2 := hs (i + 1) (by simpa using Nat.succ_lt_succ hi)
      have e : start + (i + 1) = start + 1 + i := by omega
      rw [e] at h2
      exact h2)
    refine ⟨(stepKey start, ⟨v, ⟨trajName, start, st⟩⟩) :: recs, ?_, by simp [hlen], ?_⟩
    · simp [execSteps, hv0, hr]
    · intro i h
      cases i with
      | zero => exact ⟨by simp, by simp⟩
      | succ j =>
        have hj : j < recs.length := by simpa using h
        have hp := hprop j hj
        have e : start + 1 + j = start + (j + 1) := by omega
        refine ⟨?_, ?_⟩
        · simpa [e] using hp.1
        · simpa [e] using hp.2

/-- C7: for every trajectory with N steps whose contact seek succeeds
and in which the sampling of every step succeeds, `_execute_trajectory`
returns exactly N step records, in execution order, whose key at index
i is the zero-padded `step_{i:03d}` and whose `metadata.step_index`
equals i, its position in the step list. -/
theorem execute_trajectory_step_records {V : Type} (cfg : SeekConfig) (r : Nat → Rat)
    (fuel : Nat) (z0 zc : Rat) (tix : Nat) (trajName : String) (steps : List Step)
    (sample : Nat → Except Fault V)
    (hseek : moveToContact cfg r fuel z0 = ContactOutcome.ok zc tix)
    (hsample : ∀ i, i < steps.length → ∃ v, sample i = Except.ok v) :
    ∃ evs recs,
      executeTrajectory cfg r fuel z0 trajName steps sample = some (evs, Except.ok recs)
      ∧ recs.length = steps.length
      ∧ ∀ i (h : i < recs.length),
          (recs.get ⟨i, h⟩).1 = stepKey i
          ∧ (recs.get ⟨i, h⟩).2.metadata.step_index = i := by
  obtain ⟨recs, hr, hlen, hprop⟩ :=
    execSteps_ok trajName sample steps 0 (fun i hi => by simpa using hsample i hi)
  cases steps with
  | nil =>
    exact ⟨[], [], rfl, rfl, fun i h => absurd h (by simp)⟩
  | cons st rest =>
    have hseek2 : (moveToContactTr cfg r fuel z0).2 = ContactOutcome.ok zc tix := hseek
    simp only [executeTrajectory, List.isEmpty_cons, hseek2, hr]
    exact ⟨_, recs, rfl, hlen, fun i h => by simpa using hprop i h⟩

/-- Witness for C7: the two-step trajectory of the end-to-end
scenario, with an always-succeeding sampler and a benign contact seek;
the two keys are the zero-padded `step_000` and `step_001`. -/
theorem execute_trajectory_step_records_witness :
    (∃ evs recs,
      executeTrajectory cfgC2 rW 5 0 "push"
          [Step.mk 0 0 (-1), Step.mk 0 0 (-1)] sampleW = some (evs, Except.ok recs)
      ∧ recs.length = [Step.mk 0 0 (-1), Step.mk 0 0 (-1)].length
      ∧ ∀ i (h : i < recs.length),
          (recs.get ⟨i, h⟩).1 = stepKey i
          ∧ (recs.get ⟨i, h⟩).2.metadata.step_index = i)
    ∧ stepKey 0 = "step_000" ∧ stepKey 1 = "step_001" :=
  ⟨execute_trajectory_step_records cfgC2 rW 5 0 0 1 "push"
      [Step.mk 0 0 (-1), Step.mk 0 0 (-1)] sampleW (by decide)
      (fun i _ => ⟨0, rfl⟩),
   by decide, by decide⟩

/-- C1 counterexample: trajectory `t0` raises the over-force safety
RuntimeError inside `move_to_contact`, yet `collect_calibration_data`
catches it in the per-trajectory `except Exception` handler (logging it
under `failed`) and still executes the subsequent trajectory `t1`,
whose records appear in the session tree; nothing propagates. -/
theorem safety_fault_caught_cex :
    collectCalibrationData trajCfgC1 "cube" runTrajC1
        = ⟨[("cube", [("t1", [("step_000", 7)])])], ["t0"], ["t0", "t1"]⟩
    ∧ runTrajC1 "t0" [Step.mk 0 0 (-1)] = Except.error (Fault.safety (-20)) := by
  exact ⟨by decide, rfl⟩

lemma collectLoop_attempted {W : Type}
    (runTraj : String → List Step → Except Fault (StepMap W)) :
    ∀ trajs, (collectLoop runTraj trajs).2.2 = trajs.map Prod.fst := by
  intro trajs
  induction trajs with
  | nil => rfl
  | cons p rest ih =>
    obtain ⟨name, steps⟩ := p
    simp only [collectLoop, List.map_cons]
    cases runTraj name steps <;> simp [ih]

/-- C1 amended: the safety RuntimeError raised inside `move_to_contact`
is caught, like every other exception, by the per-trajectory
`except Exception` handler of `collect_calibration_data`; the session
therefore goes on to attempt every trajectory of the object, in order,
regardless of which trajectories fault. -/
theorem collect_attempts_all_trajectories {W : Type}
    (trajCfg : List (String × List (String × List Step))) (obj : String)
    (runTraj : String → List Step → Except Fault (StepMap W))
    (trajs : List (String × List Step))
    (h : alookup trajCfg obj = some trajs) :
    (collectCalibrationData trajCfg obj runTraj).attempted = trajs.map Prod.fst := by
  simp only [collectCalibrationData, h]
  exact collectLoop_attempted runTraj trajs

/-- Witness for C1 amended: both trajectories of the concrete session
are attempted although the first one raises the safety fault. -/
theorem collect_attempts_all_trajectories_witness :
    (collectCalibrationData trajCfgC1 "cube" runTrajC1).attempted
      = trajsC1.map Prod.fst :=
  collect_attempts_all_trajectories trajCfgC1 "cube" runTrajC1 trajsC1 (by decide)

/-- C3 counterexample: a session whose requested object is absent from
the trajectory library produces zero step records, yet
`self.calibration_data` holds the object name with an empty subtree, so
`cleanup` still calls `save_calibration_data` and a write is performed
(the merged tree containing the spurious empty object is written). -/
theorem empty_session_write_cex :
    (collectCalibrationData ([] : List (String × List (String × List Step)))
        "cube" runTrajTriv).calibData = [("cube", [])]
    ∧ cleanupSave ((collectCalibrationData
          ([] : List (String × List (String × List Step))) "cube"
          runTrajTriv).calibData) ([] : CalTree Nat)
        = some ([("cube", [])], []) := by
  exact ⟨by decide, rfl⟩

/-- C3 amended: the write is skipped exactly when `calibration_data` is
empty, which happens only when `collect_calibration_data` never ran; a
session that ran — even one that produced zero step records — always
leaves the object key present and always triggers a write. -/
theorem session_write_always_occurs {W : Type}
    (trajCfg : List (String × List (String × List Step))) (obj : String)
    (runTraj : String → List Step → Except Fault (StepMap W)) (store : CalTree W) :
    cleanupSave ((collectCalibrationData trajCfg obj runTraj).calibData) store ≠ none
    ∧ cleanupSave ([] : CalTree W) store = none := by
  constructor
  · simp only [collectCalibrationData]
    cases halk : alookup trajCfg obj with
    | none => simp [cleanupSave, saveCalibrationData]
    | some trajs => simp [cleanupSave, saveCalibrationData]
  · simp [cleanupSave]

/-- C4 counterexample: the dry-run path does issue robot motion
commands — the collector constructor moves to the default and initial
poses, and `cleanup` itself moves to the safe position. -/
theorem dry_run_motion_cex : Event.motion ∈ dryRunTrace 0 := by decide

/-- C4 amended: in dry-run mode no data sampling ever happens (no force
or tactile sample events appear in the trace) and teardown runs
(sensor release and motor off are in the trace), but robot motion
commands are issued, by the constructor and by the teardown
move-to-safe-position. -/
theorem dry_run_no_sampling (j5 : Rat) :
    Event.forceSample ∉ dryRunTrace j5
    ∧ Event.tactileSample ∉ dryRunTrace j5
    ∧ Event.motion ∈ dryRunTrace j5
    ∧ Event.sensorRelease ∈ dryRunTrace j5
    ∧ Event.motorOff ∈ dryRunTrace j5 := by
  unfold dryRunTrace initEvents checkJointLimitEvents cleanupEvents
  split_ifs <;> decide

/-- C6 counterexample: each of the three bracket-indexed options makes
`move_to_contact` fail with a KeyError when a supplied config file
omits it — an empty mapping fails at the `approach_speed` read, a
config omitting only `max_force` fails at the first safety check of
the loop, and a config omitting only `press_speed` fails at the
speed restore after contact is found; no default is supplied for any
of them. -/
theorem config_missing_key_cex :
    moveToContactChecked (initConfig (some [])) (-1/50) rW 3 0 = none
    ∧ alookup (initConfig (some [])) "approach_speed" = none
    ∧ moveToContactChecked (initConfig (some cfgNoMax)) (-1/50) rW 3 0 = none
    ∧ alookup (initConfig (some cfgNoMax)) "max_force" = none
    ∧ moveToContactChecked (initConfig (some cfgNoPress)) (-1) rW 5 0 = none
    ∧ alookup (initConfig (some cfgNoPress)) "press_speed" = none
    ∧ moveToContact ⟨-10, -1⟩ rW 5 0 = ContactOutcome.ok 0 1 :=
  ⟨rfl, rfl, rfl, rfl, by decide, rfl, by decide⟩

/-- C6 amended: the options read via `.get` — `contact_threshold`,
`data_frames`, `frame_interval`, `step_settle_time`, `safe_offset_mm` —
always succeed, falling back to their inline defaults when the key is
absent; but `approach_speed`, `press_speed` and `max_force` are read by
direct indexing in `move_to_contact` and raise a KeyError when a
supplied config file omits them (the default dict applies only when no
config file is given at all): a missing `approach_speed` fails before
the loop, a missing `max_force` fails at the first loop iteration, and
a missing `press_speed` fails at the speed restore whenever contact is
found. -/
theorem config_defaults_behavior :
    (∀ c : List (String × Rat),
      (alookup c "step_settle_time" = none → (initFields c).step_settle_time = 3/10)
      ∧ (alookup c "safe_offset_mm" = none → (initFields c).safe_offset_mm = 1)
      ∧ (alookup c "frame_interval" = none → (initFields c).frame_interval = 1/10)
      ∧ (alookup c "data_frames" = none → (initFields c).data_frames = 10)
      ∧ (alookup c "contact_threshold" = none → (initFields c).cont_th = -1/20))
    ∧ (∀ (c : List (String × Rat)) (th z0 : Rat) (r : Nat → Rat) (fuel : Nat),
        alookup c "approach_speed" = none →
        moveToContactChecked c th r fuel z0 = none)
    ∧ (∀ (c : List (String × Rat)) (th z0 : Rat) (r : Nat → Rat) (fuel : Nat),
        alookup c "max_force" = none →
        moveToContactChecked c th r fuel z0 = none)
    ∧ (∀ (c : List (String × Rat)) (th z0 zc : Rat) (r : Nat → Rat)
        (fuel tix : Nat) (a mf : Rat),
        alookup c "approach_speed" = some a →
        alookup c "max_force" = some mf →
        alookup c "press_speed" = none →
        moveToContact ⟨mf, th⟩ r fuel z0 = ContactOutcome.ok zc tix →
        moveToContactChecked c th r fuel z0 = none) := by
  refine ⟨?_, ?_, ?_, ?_⟩
  · intro c
    refine ⟨?_, ?_, ?_, ?_, ?_⟩ <;> intro h <;> simp [initFields, cfgGetD, h]
  · intro c th z0 r fuel h
    simp [moveToContactChecked, h]
  · intro c th z0 r fuel h
    unfold moveToContactChecked
    cases alookup c "approach_speed" <;> simp [h]
  · intro c th z0 zc r fuel tix a mf h1 h2 h3 h4
    simp [moveToContactChecked, h1, h2, h3, h4]

/-- Witness for C6 amended: one concrete config per failure mode — the
empty config, the config without `max_force`, and the config without
`press_speed` on a descent that finds contact. -/
theorem config_defaults_behavior_witness :
    (initFields []).step_settle_time = 3/10
    ∧ moveToContactChecked [] (-1/50) rW 3 0 = none
    ∧ moveToContactChecked cfgNoMax (-1/50) rW 3 0 = none
    ∧ moveToContactChecked cfgNoPress (-1) rW 5 0 = none :=
  ⟨(config_defaults_behavior.1 []).1 rfl,
   config_defaults_behavior.2.1 [] (-1/50) 0 rW 3 rfl,
   config_defaults_behavior.2.2.1 cfgNoMax (-1/50) 0 rW 3 rfl,
   config_defaults_behavior.2.2.2 cfgNoPress (-1) 0 0 rW 5 1 1 (-10)
     rfl rfl rfl (by decide)⟩

lemma alookup_aset {α : Type} (l : List (String × α)) (k : String) (v : α)
    (k2 : String) :
    alookup (aset l k v) k2 = if k2 = k then some v else alookup l k2 := by
  induction l with
  | nil =>
    by_cases h : k2 = k
    · simp [aset, alookup, h]
    · simp [aset, alookup, h, Ne.symm h]
  | cons p rest ih =>
    obtain ⟨a, b⟩ := p
    by_cases hak : a = k
    · subst hak
      by_cases h : k2 = a
      · simp [aset, alookup, h]
      · simp [aset, alookup, h, Ne.symm h]
    · by_cases hk2 : a = k2
      · subst hk2
        have h2 : ¬ a = k := hak
        simp [aset, alookup, hak, Ne.symm hak, ih]
      · simp [aset, alookup, hak, hk2, ih]

lemma alookup_append {α : Type} (l1 l2 : List (String × α)) (k : String) :
    alookup (l1 ++ l2) k = oor (alookup l1 k) (alookup l2 k) := by
  induction l1 with
  | nil => simp [alookup, oor]
  | cons p rest ih =>
    obtain ⟨a, b⟩ := p
    by_cases h : a = k
    · simp [alookup, h, oor]
    · simp [alookup, h, ih]

lemma oor_none_right {α : Type} (a : Option α) : oor a none = a := by
  cases a <;> simp [oor]

lemma alookup_asetdefault {α : Type} (l : List (String × α)) (k : String) (v : α)
    (k2 : String) :
    alookup (asetdefault l k v) k2
      = if k2 = k then some ((alookup l k).getD v) else alookup l k2 := by
  unfold asetdefault
  cases hl : alookup l k with
  | some w =>
    by_cases h : k2 = k
    · subst h
      simp [hl]
    · simp [h]
  | none =>
    rw [alookup_append]
    by_cases h : k2 = k
    · subst h
      simp [hl, alookup, oor]
    · simp [alookup, h, Ne.symm h, oor_none_right]

lemma alookup_eq_none_of_not_mem {α : Type} (l : List (String × α)) (k : String)
    (h : k ∉ l.map Prod.fst) : alookup l k = none := by
  induction l with
  | nil => rfl
  | cons p rest ih =>
    obtain ⟨a, b⟩ := p
    simp only [List.map_cons, List.mem_cons] at h
    push_neg at h
    simp [alookup, Ne.symm h.1, ih h.2]

lemma mergeSteps_alookup {W : Type} (o t : String) :
    ∀ (steps tm : StepMap W), stepsNodup steps → ∀ sk,
      alookup (mergeSteps o t tm steps).1 sk
        = oor (alookup steps sk) (alookup tm sk) := by
  intro steps
  induction steps with
  | nil =>
    intro tm _ sk
    simp [mergeSteps, alookup, oor]
  | cons p rest ih =>
    intro tm hn sk
    obtain ⟨k, v⟩ := p
    simp only [stepsNodup, List.map_cons, List.nodup_cons] at hn
    simp only [mergeSteps]
    rw [ih (aset tm k v) hn.2 sk, alookup_aset]
    by_cases h : sk = k
    · subst h
      rw [alookup_eq_none_of_not_mem rest sk hn.1]
      simp [alookup, oor]
    · simp [alookup, Ne.symm h, h]

lemma mergeSteps_warn {W : Type} (o t : String) :
    ∀ (steps tm : StepMap W), stepsNodup steps → ∀ o2 t2 s2,
      ((o2, t2, s2) ∈ (mergeSteps o t tm steps).2
        ↔ o2 = o ∧ t2 = t ∧ (alookup steps s2).isSome ∧ (alookup tm s2).isSome) := by
  intro steps
  induction steps with
  | nil =>
    intro tm _ o2 t2 s2
    simp [mergeSteps, alookup]
  | cons p rest ih =>
    intro tm hn o2 t2 s2
    obtain ⟨k, v⟩ := p
    simp only [stepsNodup, List.map_cons, List.nodup_cons] at hn
    simp only [mergeSteps, List.mem_append]
    rw [ih (aset tm k v) hn.2 o2 t2 s2, alookup_aset]
    by_cases h : s2 = k
    · subst h
      rw [alookup_eq_none_of_not_mem rest s2 hn.1]
      cases htm : alookup tm s2 with
      | some w => simp [alookup, htm, and_comm]
      | none => simp [alookup, htm]
    · cases htm : alookup tm k with
      | some w => simp [alookup, htm, Ne.symm h, h]
      | none => simp [alookup, htm, Ne.symm h, h]

lemma alookup_getD_leaf2 {W : Type} (om : TrajMap W) (tn s : String) :
    alookup ((alookup om tn).getD []) s = leaf2 om tn s := by
  cases h : alookup om tn <;> simp [leaf2, h, alookup]

lemma mergeTrajs_alookup_none {W : Type} (o : String) :
    ∀ (trajs : TrajMap W) (om : TrajMap W) (tn : String),
      alookup trajs tn = none →
      alookup (mergeTrajs o om trajs).1 tn = alookup om tn := by
  intro trajs
  induction trajs with
  | nil => intro om tn _; rfl
  | cons p rest ih =>
    intro om tn h
    obtain ⟨a, asteps⟩ := p
    have ha : ¬ a = tn := by
      intro hc
      simp [alookup, hc] at h
    have hrest : alookup rest tn = none := by
      simpa [alookup, ha] using h
    have ha2 : ¬ tn = a := fun hc => ha hc.symm
    simp only [mergeTrajs]
    rw [ih _ tn hrest, alookup_aset]
    simp [ha2, alookup_asetdefault]

lemma mergeTrajs_alookup_some {W : Type} (o : String) :
    ∀ (trajs : TrajMap W) (om : TrajMap W) (tn : String) (steps : StepMap W),
      (trajs.map Prod.fst).Nodup →
      alookup trajs tn = some steps →
      alookup (mergeTrajs o om trajs).1 tn
        = some (mergeSteps o tn ((alookup om tn).getD []) steps).1 := by
  intro trajs
  induction trajs with
  | nil => intro om tn steps _ h; simp [alookup] at h
  | cons p rest ih =>
    intro om tn steps hn h
    obtain ⟨a, asteps⟩ := p
    simp only [List.map_cons, List.nodup_cons] at hn
    by_cases ha : a = tn
    · subst ha
      have hsteps : asteps = steps := by simpa [alookup] using h
      subst hsteps
      have hrest : alookup rest a = none := alookup_eq_none_of_not_mem rest a hn.1
      simp only [mergeTrajs]
      rw [mergeTrajs_alookup_none o rest _ a hrest, alookup_aset]
      simp [alookup_asetdefault]
    · have hrest : alookup rest tn = some steps := by simpa [alookup, ha] using h
      have ha2 : ¬ tn = a := fun hc => ha hc.symm
      simp only [mergeTrajs]
      rw [ih _ tn steps hn.2 hrest, alookup_aset]
      simp [ha2, alookup_asetdefault]

lemma mergeTrajs_warn {W : Type} (o : String) :
    ∀ (trajs : TrajMap W) (om : TrajMap W), trajsNodup trajs → ∀ o2 t2 s2,
      ((o2, t2, s2) ∈ (mergeTrajs o om trajs).2
        ↔ o2 = o ∧ (leaf2 trajs t2 s2).isSome ∧ (leaf2 om t2 s2).isSome) := by
  intro trajs
  induction trajs with
  | nil =>
    intro om _ o2 t2 s2
    simp [mergeTrajs, leaf2, alookup]
  | cons p rest ih =>
    intro om hn o2 t2 s2
    obtain ⟨a, asteps⟩ := p
    have hna : stepsNodup asteps := hn.2 (a, asteps) (by simp)
    have hnodup : a ∉ rest.map Prod.fst ∧ (rest.map Prod.fst).Nodup := by
      simpa using hn.1
    have hnrest : trajsNodup rest := ⟨hnodup.2, fun q hq => hn.2 q (by simp [hq])⟩
    simp only [mergeTrajs, List.mem_append]
    rw [mergeSteps_warn o a asteps _ hna o2 t2 s2]
    rw [ih _ hnrest o2 t2 s2]
    have hinner : alookup ((alookup (asetdefault om a []) a).getD []) s2
        = leaf2 om a s2 := by
      rw [alookup_asetdefault]
      simp [alookup_getD_leaf2]
    rw [hinner]
    by_cases ht : t2 = a
    · subst ht
      have hrest0 : alookup rest t2 = none :=
        alookup_eq_none_of_not_mem rest t2 hnodup.1
      simp only [leaf2, alookup, hrest0, if_pos rfl]
      simp [Option.bind]
    · have ha2 : ¬ a = t2 := fun hc => ht hc.symm
      have hom2 : ∀ X : StepMap W,
          alookup (aset (asetdefault om a []) a X) t2 = alookup om t2 := by
        intro X
        rw [alookup_aset]
        simp [ht, alookup_asetdefault]
      simp only [leaf2, alookup, if_neg ha2, hom2]
      simp [ht]

lemma alookup_mem {α : Type} : ∀ (l : List (String × α)) (k : String) (v : α),
    alookup l k = some v → (k, v) ∈ l := by
  intro l
  induction l with
  | nil => intro k v h; simp [alookup] at h
  | cons p rest ih =>
    intro k v h
    obtain ⟨a, b⟩ := p
    by_cases ha : a = k
    · subst ha
      have hb : b = v := by simpa [alookup] using h
      subst hb
      simp
    · have := ih k v (by simpa [alookup, ha] using h)
      simp [this]

lemma leaf2_getD_leaf3 {W : Type} (store : CalTree W) (ob t s : String) :
    leaf2 ((alookup store ob).getD []) t s = leaf3 store ob t s := by
  cases h : alookup store ob <;> simp [leaf3, leaf2, h, alookup]

lemma mergeObjects_alookup_none {W : Type} :
    ∀ (calib : CalTree W) (store : CalTree W) (ob : String),
      alookup calib ob = none →
      alookup (mergeObjects store calib).1 ob = alookup store ob := by
  intro calib
  induction calib with
  | nil => intro store ob _; rfl
  | cons p rest ih =>
    intro store ob h
    obtain ⟨a, atrajs⟩ := p
    have ha : ¬ a = ob := by
      intro hc
      simp [alookup, hc] at h
    have hrest : alookup rest ob = none := by
      simpa [alookup, ha] using h
    have ha2 : ¬ ob = a := fun hc => ha hc.symm
    simp only [mergeObjects]
    rw [ih _ ob hrest, alookup_aset]
    simp [ha2, alookup_asetdefault]

lemma mergeObjects_alookup_some {W : Type} :
    ∀ (calib : CalTree W) (store : CalTree W) (ob : String) (trajs : TrajMap W),
      (calib.map Prod.fst).Nodup →
      alookup calib ob = some trajs →
      alookup (mergeObjects store calib).1 ob
        = some (mergeTrajs ob ((alookup store ob).getD []) trajs).1 := by
  intro calib
  induction calib with
  | nil => intro store ob trajs _ h; simp [alookup] at h
  | cons p rest ih =>
    intro store ob trajs hn h
    obtain ⟨a, atrajs⟩ := p
    simp only [List.map_cons, List.nodup_cons] at hn
    by_cases ha : a = ob
    · subst ha
      have htrajs : atrajs = trajs := by simpa [alookup] using h
      subst htrajs
      have hrest : alookup rest a = none := alookup_eq_none_of_not_mem rest a hn.1
      simp only [mergeObjects]
      rw [mergeObjects_alookup_none rest _ a hrest, alookup_aset]
      simp [alookup_asetdefault]
    · have hrest : alookup rest ob = some trajs := by simpa [alookup, ha] using h
      have ha2 : ¬ ob = a := fun hc => ha hc.symm
      simp only [mergeObjects]
      rw [ih _ ob trajs hn.2 hrest, alookup_aset]
      simp [ha2, alookup_asetdefault]

lemma mergeObjects_warn {W : Type} :
    ∀ (calib : CalTree W) (store : CalTree W), treeNodup calib → ∀ o2 t2 s2,
      ((o2, t2, s2) ∈ (mergeObjects store calib).2
        ↔ (leaf3 calib o2 t2 s2).isSome ∧ (leaf3 store o2 t2 s2).isSome) := by
  intro calib
  induction calib with
  | nil =>
    intro store _ o2 t2 s2
    simp [mergeObjects, leaf3, alookup]
  | cons p rest ih =>
    intro store hn o2 t2 s2
    obtain ⟨a, atrajs⟩ := p
    have hna : trajsNodup atrajs := hn.2 (a, atrajs) (by simp)
    have hnodup : a ∉ rest.map Prod.fst ∧ (rest.map Prod.fst).Nodup := by
      simpa using hn.1
    have hnrest : treeNodup rest := ⟨hnodup.2, fun q hq => hn.2 q (by simp [hq])⟩
    simp only [mergeObjects, List.mem_append]
    rw [mergeTrajs_warn a atrajs _ hna o2 t2 s2]
    rw [ih _ hnrest o2 t2 s2]
    have hom : leaf2 ((alookup (asetdefault store a []) a).getD []) t2 s2
        = leaf3 store a t2 s2 := by
      rw [alookup_asetdefault]
      simp [leaf2_getD_leaf3]
    rw [hom]
    by_cases ho : o2 = a
    · subst ho
      have hrest0 : alookup rest o2 = none :=
        alookup_eq_none_of_not_mem rest o2 hnodup.1
      simp only [leaf3, alookup, hrest0, if_pos rfl]
      simp [Option.bind]
    · have ha2 : ¬ a = o2 := fun hc => ho hc.symm
      have hst2 : ∀ X : TrajMap W,
          alookup (aset (asetdefault store a []) a X) o2 = alookup store o2 := by
        intro X
        rw [alookup_aset]
        simp [ho, alookup_asetdefault]
      simp only [leaf3, alookup, if_neg ha2, hst2]
      simp [ho]

lemma mergeObjects_leaf {W : Type} (store calib : CalTree W) (hn : treeNodup calib)
    (ob t s : String) :
    leaf3 (mergeObjects store calib).1 ob t s
      = oor (leaf3 calib ob t s) (leaf3 store ob t s) := by
  cases hc : alookup calib ob with
  | none =>
    simp only [leaf3]
    rw [mergeObjects_alookup_none calib store ob hc, hc]
    simp [oor]
  | some trajs =>
    have htn : trajsNodup trajs := hn.2 (ob, trajs) (alookup_mem calib ob trajs hc)
    simp only [leaf3]
    rw [mergeObjects_alookup_some calib store ob trajs hn.1 hc, hc]
    simp only [Option.some_bind]
    cases ht : alookup trajs t with
    | none =>
      simp only [leaf2]
      rw [mergeTrajs_alookup_none ob trajs _ t ht, ht]
      simp only [Option.none_bind, oor]
      exact leaf2_getD_leaf3 store ob t s
    | some steps =>
      have hsn : stepsNodup steps := htn.2 (t, steps) (alookup_mem trajs t steps ht)
      simp only [leaf2]
      rw [mergeTrajs_alookup_some ob trajs _ t steps htn.1 ht, ht]
      simp only [Option.some_bind]
      rw [mergeSteps_alookup ob t steps _ hsn s]
      rw [alookup_getD_leaf2, leaf2_getD_leaf3]
      rfl

/-- C8: `save_calibration_data` performs a three-level deep union of
the session tree into the loaded store: at every (object, trajectory,
step) path the merged tree holds the session value when the session
tree has one (overwriting) and the prior store value otherwise (so
disjoint keys — siblings included — keep their values and nothing is
lost), and a warning naming exactly that path is emitted precisely when
the path is present in both trees. -/
theorem storage_merge_union_overwrite {W : Type} (store calib : CalTree W)
    (hn : treeNodup calib) (ob t s : String) :
    leaf3 (mergeObjects store calib).1 ob t s
        = oor (leaf3 calib ob t s) (leaf3 store ob t s)
    ∧ ((ob, t, s) ∈ (mergeObjects store calib).2
        ↔ (leaf3 calib ob t s).isSome ∧ (leaf3 store ob t s).isSome) :=
  ⟨mergeObjects_leaf store calib hn ob t s,
   mergeObjects_warn calib store hn ob t s⟩

/-- Witness for C8 at concrete trees overlapping in exactly one path:
the overlapped step takes the session value and is warned about, the
disjoint sibling step and the disjoint object survive unchanged. -/
theorem storage_merge_union_overwrite_witness :
    (leaf3 (mergeObjects storeC8 calibC8).1 "a" "t" "s1"
        = oor (leaf3 calibC8 "a" "t" "s1") (leaf3 storeC8 "a" "t" "s1")
      ∧ (("a", "t", "s1") ∈ (mergeObjects storeC8 calibC8).2
        ↔ (leaf3 calibC8 "a" "t" "s1").isSome ∧ (leaf3 storeC8 "a" "t" "s1").isSome))
    ∧ leaf3 (mergeObjects storeC8 calibC8).1 "a" "t" "s1" = some 2
    ∧ leaf3 (mergeObjects storeC8 calibC8).1 "a" "t" "s2" = some 3
    ∧ leaf3 (mergeObjects storeC8 calibC8).1 "b" "u" "s" = some 4
    ∧ ("a", "t", "s1") ∈ (mergeObjects storeC8 calibC8).2 :=
  ⟨storage_merge_union_overwrite storeC8 calibC8
      ⟨by decide, by decide⟩ "a" "t" "s1",
   by decide, by decide, by decide, by decide⟩
